import Mathlib

/-!
Verification of the incremental attendance synchronization pipeline
(`zkt-eco.py`): timestamp normalization, watermark filtering, daily
first/last reduction, watermark commit, log shipping and the per-device
fetch/send cycle.

Python `datetime` values are modelled as six-field records of naturals;
`strptime`/`fromisoformat`/`strftime` are modelled character-by-character
for the formats the program uses.  Python string comparison (used by
`sorted(..., key=lambda x: x["time"])`) is code-point lexicographic and is
modelled by a structural function on `List Char`.
-/

namespace ZktEco

/-- A calendar date-time, the model of a Python naive `datetime`
(the program attaches one fixed +05:45 offset to every value, so
chronological comparison coincides with field-lexicographic comparison). -/
structure DT where
  y : Nat
  mo : Nat
  d : Nat
  h : Nat
  mi : Nat
  s : Nat
deriving DecidableEq

/-- Chronological order on date-times: field-lexicographic, as Python
compares `datetime` values that carry the same `tzinfo`. -/
def DT.le (a b : DT) : Bool :=
  decide (a.y < b.y ∨ (a.y = b.y ∧ (a.mo < b.mo ∨ (a.mo = b.mo ∧
    (a.d < b.d ∨ (a.d = b.d ∧ (a.h < b.h ∨ (a.h = b.h ∧
    (a.mi < b.mi ∨ (a.mi = b.mi ∧ a.s ≤ b.s))))))))))

/-- Order on the date components only. -/
def DT.dateLE (a b : DT) : Bool :=
  decide (a.y < b.y ∨ (a.y = b.y ∧ (a.mo < b.mo ∨ (a.mo = b.mo ∧ a.d ≤ b.d))))

/-- Start of the day of `t`: same date, midnight. -/
def DT.floorDay (t : DT) : DT := ⟨t.y, t.mo, t.d, 0, 0, 0⟩

/-- Gregorian leap year, as Python's `calendar`/`datetime` use. -/
def isLeap (y : Nat) : Bool := (y % 4 == 0 && y % 100 != 0) || (y % 400 == 0)

/-- Number of days of month `mo` of year `y`. -/
def daysInMonth (y mo : Nat) : Nat :=
  if mo = 2 then (if isLeap y then 29 else 28)
  else if mo = 4 ∨ mo = 6 ∨ mo = 9 ∨ mo = 11 then 30
  else 31

/-- Validity of a date-time: the ranges Python's `datetime` constructor
enforces (`strptime` raises `ValueError` outside them). -/
def DT.valid (t : DT) : Prop :=
  1 ≤ t.y ∧ t.y ≤ 9999 ∧ 1 ≤ t.mo ∧ t.mo ≤ 12 ∧
  1 ≤ t.d ∧ t.d ≤ daysInMonth t.y t.mo ∧ t.h ≤ 23 ∧ t.mi ≤ 59 ∧ t.s ≤ 59

instance : DecidablePred DT.valid := fun t => by unfold DT.valid; infer_instance

/-- Value of an ASCII digit character, `none` on a non-digit. -/
def toDigit (c : Char) : Option Nat :=
  if '0' ≤ c ∧ c ≤ '9' then some (c.toNat - 48) else none

/-- The ASCII digit character of `n < 10`. -/
def digitChar (n : Nat) : Char := Char.ofNat (48 + n)

/-- Two-digit zero-padded rendering, as `strftime` `%m`, `%d`, `%H`, `%M`, `%S`. -/
def pad2 (n : Nat) : List Char := [digitChar (n / 10), digitChar (n % 10)]

/-- Four-digit zero-padded rendering, as `strftime` `%Y` for four-digit years. -/
def pad4 (n : Nat) : List Char :=
  [digitChar (n / 1000), digitChar (n / 100 % 10), digitChar (n / 10 % 10), digitChar (n % 10)]

/-- Two ASCII digits as a number. -/
def parseDigits2 (a b : Char) : Option Nat := do
  let x ← toDigit a
  let y ← toDigit b
  pure (10 * x + y)

/-- Four ASCII digits as a number. -/
def parseDigits4 (a b c d : Char) : Option Nat := do
  let x ← toDigit a
  let y ← toDigit b
  let z ← toDigit c
  let w ← toDigit d
  pure (1000 * x + 100 * y + 10 * z + w)

/-- Range-checked constructor, the model of building a `datetime` from
parsed fields: `none` models the `ValueError` raised on an invalid date. -/
def mkDT (y mo d h mi s : Nat) : Option DT :=
  let t : DT := ⟨y, mo, d, h, mi, s⟩
  if t.valid then some t else none

/-- Parse a date-time of shape `YYYY-MM-DD<sep>HH:MM:SS` from the front of a
character list, returning the remaining characters.  This is the shared core
of the program's two parsing calls: `strptime(s, "%Y-%m-%d %H:%M:%S")`
(`sep = ' '`) and the date-time part of `fromisoformat` (`sep = 'T'`). -/
def parseDT (sep : Char) : List Char → Option (DT × List Char)
  | y1 :: y2 :: y3 :: y4 :: '-' :: m1 :: m2 :: '-' :: d1 :: d2 :: c ::
      h1 :: h2 :: ':' :: i1 :: i2 :: ':' :: s1 :: s2 :: rest =>
    if c = sep then
      match parseDigits4 y1 y2 y3 y4, parseDigits2 m1 m2, parseDigits2 d1 d2,
          parseDigits2 h1 h2, parseDigits2 i1 i2, parseDigits2 s1 s2 with
      | some y, some mo, some d, some h, some mi, some s =>
        (mkDT y mo d h mi s).map (fun t => (t, rest))
      | _, _, _, _, _, _ => none
    else none
  | _ => none

/-- Model of `datetime.strptime(s, "%Y-%m-%d %H:%M:%S")`: `none` models the
`ValueError` raised on a string that does not match the format or names an
invalid calendar date-time.  (The library also accepts non-zero-padded
fields; the program only ever feeds it zero-padded strings.) -/
def parseTime (s : String) : Option DT :=
  match parseDT ' ' s.data with
  | some (t, []) => some t
  | _ => none

/-- A trailing UTC-offset suffix `±HH:MM` (or none at all), the offset forms
of the ISO strings this program reads. -/
def parseOffset : List Char → Bool
  | [] => true
  | [c, o1, o2, ':', o3, o4] =>
    (c = '+' || c = '-') && (toDigit o1).isSome && (toDigit o2).isSome &&
      (toDigit o3).isSome && (toDigit o4).isSome
  | _ => false

/-- Model of `datetime.fromisoformat` on the forms the watermark file holds:
`YYYY-MM-DDTHH:MM:SS` with an optional `±HH:MM` offset.  `none` models the
`ValueError` on anything else. -/
def parseISO (s : String) : Option DT :=
  match parseDT 'T' s.data with
  | some (t, rest) => if parseOffset rest then some t else none
  | _ => none

/-- Model of `strftime('%Y-%m-%d %H:%M:%S')`, the raw timestamp rendering
built in `fetch_attendance_data`. -/
def renderRaw (t : DT) : String :=
  ⟨pad4 t.y ++ '-' :: pad2 t.mo ++ '-' :: pad2 t.d ++ ' ' ::
    pad2 t.h ++ ':' :: pad2 t.mi ++ ':' :: pad2 t.s⟩

/-- Model of `strftime("%Y-%m-%dT%H:%M:%S+05:45")`, the normalizer's output
format in `formatted_attendance_data`. -/
def renderISO (t : DT) : String :=
  ⟨pad4 t.y ++ '-' :: pad2 t.mo ++ '-' :: pad2 t.d ++ 'T' ::
    pad2 t.h ++ ':' :: pad2 t.mi ++ ':' :: pad2 t.s ++
    ['+', '0', '5', ':', '4', '5']⟩

/- ### Attendance records and Python string comparison -/

/-- An attendance record dictionary as built in `fetch_attendance_data`:
`{"user_id": ..., "user_name": ..., "time": ..., "status": ...}`.
Equality is structural, as Python dict equality. -/
structure Rec where
  user_id : String
  user_name : String
  time : String
  status : Nat
deriving DecidableEq

/-- Python string `<=` (equivalently `not (b < a)`). -/
def lexLe : List Char → List Char → Bool
  | [], _ => true
  | _ :: _, [] => false
  | a :: as, b :: bs =>
    if a.toNat < b.toNat then true
    else if b.toNat < a.toNat then false
    else lexLe as bs

/-- The sort relation of `sorted(records, key=lambda x: x["time"])`:
compare the `time` strings as Python compares strings. -/
def timeLE (a b : Rec) : Prop := lexLe a.time.data b.time.data = true

instance : DecidableRel timeLE := fun a b =>
  inferInstanceAs (Decidable (lexLe a.time.data b.time.data = true))

/- ### The normalize / group / reduce pipeline (`formatted_attendance_data`) -/

/-- The nested output mapping `{date: {user_id: [records]}}`, with Python
dict insertion order modelled by association-list order. -/
abbrev Grouped := List (String × List (String × List Rec))

/-- Lines 88-92: parse the raw timestamp with `strptime` and rewrite it to
the ISO form with the literal `+05:45` offset.  `none` models the
`ValueError` that `strptime` raises on an unparsable timestamp; the source
has no handler for it inside the loop, so it aborts the whole call. -/
def normalizeRec (r : Rec) : Option Rec :=
  (parseTime r.time).map (fun t => ⟨r.user_id, r.user_name, renderISO t, r.status⟩)

/-- The normalization loop of lines 86-98: the first unparsable timestamp
raises, discarding the whole batch. -/
def normalizeAll : List Rec → Option (List Rec)
  | [] => some []
  | r :: rs =>
    match normalizeRec r with
    | none => none
    | some r2 => (normalizeAll rs).map (fun l => r2 :: l)

/-- `formatted_data[date][uid].append(record)` on the inner `defaultdict`:
append to an existing key's list in place, add new keys at the end
(Python dict insertion order). -/
def upsertUser : List (String × List Rec) → String → Rec → List (String × List Rec)
  | [], uid, r => [(uid, [r])]
  | (k, rs) :: rest, uid, r =>
    if k = uid then (k, rs ++ [r]) :: rest else (k, rs) :: upsertUser rest uid r

/-- `formatted_data[date][uid].append(record)` on the outer `defaultdict`. -/
def upsertDate : Grouped → String → String → Rec → Grouped
  | [], date, uid, r => [(date, [(uid, [r])])]
  | (k, us) :: rest, date, uid, r =>
    if k = date then (k, upsertUser us uid r) :: rest
    else (k, us) :: upsertDate rest date uid r

/-- The characters before the first `'T'`. -/
def takeUntilT : List Char → List Char
  | [] => []
  | c :: cs => if c = 'T' then [] else c :: takeUntilT cs

/-- Line 95: `formatted_time.split("T")[0]` — the prefix of the string
before its first `'T'`. -/
def datePart (s : String) : String := ⟨takeUntilT s.data⟩

/-- The grouping loop of lines 86-98 applied to already-normalized records. -/
def groupRecords (l : List Rec) : Grouped :=
  l.foldl (fun m r => upsertDate m (datePart r.time) r.user_id r) []

/-- Lines 104-112: sort the group's records by their `time` string (Python's
`sorted` is stable; `List.insertionSort` with a `≤`-style relation inserts
from the right and is stable in the same way), keep the first record, and
additionally the last one when the group has more than one record and the
last differs structurally from the first. -/
def reduceGroup (records : List Rec) : List Rec :=
  match List.insertionSort timeLE records with
  | [] => []
  | first :: rest =>
    if rest ≠ [] ∧ first ≠ rest.getLastD first then [first, rest.getLastD first]
    else [first]

/-- Lines 118-129: rebuild the surviving records, re-annotating them with
the group's user id and the user name of the first surviving record. -/
def rebuild (uid : String) (recs : List Rec) : List Rec :=
  match recs with
  | [] => []
  | r0 :: _ => recs.map (fun r => ⟨uid, r0.user_name, r.time, r.status⟩)

/-- `formatted_attendance_data` (lines 70-132).  The source normalizes and
groups in one loop; since an unparsable timestamp aborts the whole call,
this is equivalent to normalizing everything first, then grouping.
`Except.error ()` models the uncaught exception leaving the function. -/
def formatted_attendance_data (attendance_data : List Rec) : Except Unit Grouped :=
  match normalizeAll attendance_data with
  | none => .error ()
  | some normalized =>
    .ok ((groupRecords normalized).map (fun du =>
      (du.1, du.2.map (fun ur => (ur.1, rebuild ur.1 (reduceGroup ur.2))))))

/- ### The watermark filter (`filter_data`) -/

/-- The list comprehension of lines 146-149, evaluated left to right: the
first record whose `time` does not `strptime` raises; otherwise a record is
kept iff `last_sync_date <= t <= current_time` (a closed interval; the
shared fixed offset makes the comparison the naive field comparison). -/
def filterAux (wm now : DT) : List Rec → Except Unit (List Rec)
  | [] => .ok []
  | r :: rs =>
    match parseTime r.time with
    | none => .error ()
    | some t =>
      match filterAux wm now rs with
      | .error e => .error e
      | .ok l => .ok (if DT.le wm t && DT.le t now then r :: l else l)

/-- `filter_data` (lines 134-151): read the watermark file (`none` models a
missing file), parse it with `fromisoformat`, capture `now` once, filter.
An unreadable or unparsable watermark raises out of the function. -/
def filter_data (wmContent : Option String) (now : DT) (records : List Rec) :
    Except Unit (List Rec) :=
  match wmContent with
  | none => .error ()
  | some content =>
    match parseISO content with
    | none => .error ()
    | some wm => filterAux wm now records

/-- The filter predicate of line 148 as a single test. -/
def timeOkB (wm now : DT) (r : Rec) : Bool :=
  match parseTime r.time with
  | some t => DT.le wm t && DT.le t now
  | none => false

/- ### Watermark commit (`updateTheLastSyncDate`) -/

/-- Line 280: `current_time.strftime("%Y-%m-%dT00:00:00+05:45")` — the
current date with the literal midnight time and offset, i.e. the ISO
rendering of the midnight of `now`'s date. -/
def strftimeCommit (now : DT) : String := renderISO now.floorDay

/-- `updateTheLastSyncDate` (lines 268-284) as a transformer of the
watermark file content: read and parse the old content (an unparsable
content raises before anything is written, modelled by `none`), then write
the commit string built from `now` (the current time in the watermark's
timezone).  The old value is otherwise ignored. -/
def updateTheLastSyncDate (content : String) (now : DT) : Option String :=
  match parseISO content with
  | none => none
  | some _ => some (strftimeCommit now)

/- ### Delivery and log shipping -/

/-- `sendDataToServer` (lines 212-231).  `deliveryResult` is `none` when
`requests.post` itself raises (network error) and `some status` otherwise;
`raise_for_status` raises `HTTPError` for statuses 400-599.  Every failure
is a `RequestException`, caught by the function's own handler, which prints
and falls through — so the function returns `None` on failure and never
propagates a delivery failure to its caller. -/
def sendDataToServer (deliveryResult : Option Nat) : Option Unit :=
  match deliveryResult with
  | none => none
  | some status => if 400 ≤ status ∧ status ≤ 599 then none else some ()

/-- `sendLogFileDataToserver` (lines 233-266) as a transformer of the log
file content (`none` models an unreadable/missing file).  When the file is
readable its text is POSTed (the outcome `postOk` is only logged; both the
success and the failure handler fall through), and then the file is opened
with mode `'w'` and closed, truncating it (`clearOk` models that final
`open` succeeding). -/
def sendLogFileDataToserver (logFile : Option String) (postOk clearOk : Bool) :
    Option String :=
  match logFile with
  | none => logFile
  | some content =>
    let _sent := postOk
    if clearOk then some "" else some content

/- ### The device cycle (`fetch_attendance_data` and the main loop body) -/

/-- A raw punch event as the terminal collaborator returns it:
`record.timestamp` is a Python `datetime` object. -/
structure RawRec where
  user_id : String
  timestamp : DT
  status : Nat
deriving DecidableEq

/-- One device's observable behaviour for one cycle: which terminal calls
succeed (a `false` models the call raising), and what data they return. -/
structure DeviceBehavior where
  connectOk : Bool
  disableOk : Bool
  attOk : Bool
  usersOk : Bool
  attendance : List RawRec
  users : List (String × String)
deriving DecidableEq

/-- The externally visible operations `fetch_attendance_data` performs on
the terminal and local storage, in order. -/
inductive Action
  | connect
  | disableDevice
  | getAttendance
  | getUsers
  | storeSnapshot
  | enableDevice
  | disconnect
deriving DecidableEq

/-- Python dict insert: a duplicate key overwrites the value in place, a new
key goes to the end (insertion order). -/
def dictInsert : List (String × String) → String → String → List (String × String)
  | [], k, v => [(k, v)]
  | (k0, v0) :: rest, k, v =>
    if k0 = k then (k0, v) :: rest else (k0, v0) :: dictInsert rest k v

/-- Line 168: `user_map = {user.user_id: user.name for user in users}`. -/
def buildUserMap (users : List (String × String)) : List (String × String) :=
  users.foldl (fun m u => dictInsert m u.1 u.2) []

/-- Dict key lookup. -/
def lookupKey (m : List (String × String)) (k : String) : Option String :=
  (m.find? (fun kv => kv.1 == k)).map (fun kv => kv.2)

/-- Line 177: `user_map.get(record.user_id, "Unknown User")`. -/
def userNameOf (m : List (String × String)) (uid : String) : String :=
  (lookupKey m uid).getD "Unknown User"

/-- The body of the `try` block after a successful connect (lines 162-205),
with the `except` clause of line 204 already applied: an exception anywhere
in the body yields `none` with the actions completed so far.  Note that
`clear_and_store_attendance_data` (lines 56-67) catches its own errors, so
the snapshot step never raises into this body. -/
def fetchBody (dev : DeviceBehavior) (wmContent : Option String) (now : DT) :
    Option Grouped × List Action :=
  if dev.disableOk = false then (none, [])
  else if dev.attOk = false then (none, [.disableDevice])
  else if dev.usersOk = false then (none, [.disableDevice, .getAttendance])
  else
    let user_map := buildUserMap dev.users
    if dev.attendance = [] then
      (none, [.disableDevice, .getAttendance, .getUsers])
    else
      let attendance_data := dev.attendance.map (fun r =>
        (⟨r.user_id, userNameOf user_map r.user_id, renderRaw r.timestamp, r.status⟩ : Rec))
      match filter_data wmContent now attendance_data with
      | .error _ => (none, [.disableDevice, .getAttendance, .getUsers])
      | .ok filtered =>
        match formatted_attendance_data filtered with
        | .error _ => (none, [.disableDevice, .getAttendance, .getUsers])
        | .ok formatted =>
          (some formatted, [.disableDevice, .getAttendance, .getUsers, .storeSnapshot])

/-- `fetch_attendance_data` (lines 153-210): connect, run the body, then the
`finally` block — when `conn` was set it re-enables the device and
disconnects on every exit path of the body; when the connect itself raised,
`conn` is still `None` and the `finally` block performs neither action. -/
def fetch_attendance_data (dev : DeviceBehavior) (wmContent : Option String) (now : DT) :
    Option Grouped × List Action :=
  if dev.connectOk = false then (none, [])
  else
    let body := fetchBody dev wmContent now
    (body.1, .connect :: body.2 ++ [.enableDevice, .disconnect])

/-- The per-cycle follow-up operations of the main loop (lines 337-342). -/
inductive CycleAct
  | sendData
  | sendLog
  | updateWM
deriving DecidableEq

/-- The process-wide mutable files: the watermark file and the log file
(`none` models a missing/unreadable file). -/
structure SweepState where
  wm : Option String
  logFile : Option String
deriving DecidableEq

/-- One device's turn of the main loop (lines 330-346): fetch; when the
fetch returned a value (`fetched_data is not None`), POST the payload
(`sendDataToServer` swallows delivery failures), ship and truncate the log,
and rewrite the watermark.  An exception inside `updateTheLastSyncDate`
(unreadable or unparsable watermark file) is caught by the loop's
per-device handler after the raise, which happens before the write, so the
watermark file keeps its old content. -/
def deviceSweepStep (dev : DeviceBehavior) (deliveryResult : Option Nat)
    (logPostOk logClearOk : Bool) (now : DT) (st : SweepState) :
    SweepState × List CycleAct :=
  match (fetch_attendance_data dev st.wm now).1 with
  | none => (st, [])
  | some _ =>
    let _resp := sendDataToServer deliveryResult
    let logFile2 := sendLogFileDataToserver st.logFile logPostOk logClearOk
    match st.wm with
    | none => (⟨st.wm, logFile2⟩, [.sendData, .sendLog])
    | some content =>
      match updateTheLastSyncDate content now with
      | none => (⟨st.wm, logFile2⟩, [.sendData, .sendLog])
      | some content2 => (⟨some content2, logFile2⟩, [.sendData, .sendLog, .updateWM])

/- ### Supporting lemmas -/

theorem toDigit_digitChar : ∀ k, k < 10 → toDigit (digitChar k) = some k := by decide

theorem daysInMonth_le (y mo : Nat) : daysInMonth y mo ≤ 31 := by
  unfold daysInMonth
  split_ifs <;> omega

theorem parseDigits2_pad2 (n : Nat) (h : n < 100) :
    parseDigits2 (digitChar (n / 10)) (digitChar (n % 10)) = some n := by
  have h1 : n / 10 < 10 := by omega
  have h2 : n % 10 < 10 := by omega
  simp [parseDigits2, toDigit_digitChar _ h1, toDigit_digitChar _ h2]
  omega

theorem parseDigits4_pad4 (n : Nat) (h : n < 10000) :
    parseDigits4 (digitChar (n / 1000)) (digitChar (n / 100 % 10))
      (digitChar (n / 10 % 10)) (digitChar (n % 10)) = some n := by
  have h1 : n / 1000 < 10 := by omega
  have h2 : n / 100 % 10 < 10 := by omega
  have h3 : n / 10 % 10 < 10 := by omega
  have h4 : n % 10 < 10 := by omega
  simp [parseDigits4, toDigit_digitChar _ h1, toDigit_digitChar _ h2,
    toDigit_digitChar _ h3, toDigit_digitChar _ h4]
  omega

/-- Parsing inverts rendering: `strptime` applied to the program's own
`strftime('%Y-%m-%d %H:%M:%S')` output recovers the date-time. -/
theorem parseTime_renderRaw (t : DT) (hv : t.valid) : parseTime (renderRaw t) = some t := by
  obtain ⟨h1, h2, h3, h4, h5, h6, h7, h8, h9⟩ := hv
  have hy : t.y < 10000 := by omega
  have hmo : t.mo < 100 := by omega
  have hd : t.d < 100 := by have := daysInMonth_le t.y t.mo; omega
  have hh : t.h < 100 := by omega
  have hmi : t.mi < 100 := by omega
  have hs : t.s < 100 := by omega
  simp only [parseTime, renderRaw, pad4, pad2, List.cons_append, List.nil_append]
  simp only [parseDT, if_pos rfl, parseDigits4_pad4 t.y hy, parseDigits2_pad2 t.mo hmo,
    parseDigits2_pad2 t.d hd, parseDigits2_pad2 t.h hh, parseDigits2_pad2 t.mi hmi,
    parseDigits2_pad2 t.s hs]
  have hvalid : (⟨t.y, t.mo, t.d, t.h, t.mi, t.s⟩ : DT).valid := by
    exact ⟨h1, h2, h3, h4, h5, h6, h7, h8, h9⟩
  simp [mkDT, if_pos hvalid]

/-- Parsing inverts rendering for the ISO form with the `+05:45` suffix:
`fromisoformat` applied to the normalizer's output recovers the date-time. -/
theorem parseISO_renderISO (t : DT) (hv : t.valid) : parseISO (renderISO t) = some t := by
  obtain ⟨h1, h2, h3, h4, h5, h6, h7, h8, h9⟩ := hv
  have hy : t.y < 10000 := by omega
  have hmo : t.mo < 100 := by omega
  have hd : t.d < 100 := by have := daysInMonth_le t.y t.mo; omega
  have hh : t.h < 100 := by omega
  have hmi : t.mi < 100 := by omega
  have hs : t.s < 100 := by omega
  simp only [parseISO, renderISO, pad4, pad2, List.cons_append, List.nil_append]
  simp only [parseDT, if_pos rfl, parseDigits4_pad4 t.y hy, parseDigits2_pad2 t.mo hmo,
    parseDigits2_pad2 t.d hd, parseDigits2_pad2 t.h hh, parseDigits2_pad2 t.mi hmi,
    parseDigits2_pad2 t.s hs]
  have hvalid : (⟨t.y, t.mo, t.d, t.h, t.mi, t.s⟩ : DT).valid := by
    exact ⟨h1, h2, h3, h4, h5, h6, h7, h8, h9⟩
  simp [mkDT, if_pos hvalid, parseOffset]
  decide

/-- A successfully parsed date-time is valid (the parser goes through the
range-checked constructor). -/
theorem parseDT_valid {sep : Char} {cs : List Char} {t : DT} {rest : List Char}
    (h : parseDT sep cs = some (t, rest)) : t.valid := by
  unfold parseDT at h
  split at h
  · split at h
    · split at h
      · rename_i y mo d hh mi s _ _ _ _ _ _
        simp only [mkDT, Option.map_eq_some'] at h
        obtain ⟨t', ht', heq⟩ := h
        split at ht'
        · rename_i hval
          cases ht'
          cases heq
          exact hval
        · cases ht'
      · cases h
    · cases h
  · cases h

/-- A timestamp accepted by `strptime` is a valid calendar date-time. -/
theorem parseTime_valid {s : String} {t : DT} (h : parseTime s = some t) : t.valid := by
  unfold parseTime at h
  split at h
  · rename_i heq
    cases h
    exact parseDT_valid heq
  · cases h

theorem lexLe_refl : ∀ l : List Char, lexLe l l = true := by
  intro l
  induction l with
  | nil => rfl
  | cons a as ih => simp [lexLe, ih]

theorem lexLe_total : ∀ a b : List Char, lexLe a b = true ∨ lexLe b a = true := by
  intro a
  induction a with
  | nil => intro b; left; rfl
  | cons x xs ih =>
    intro b
    cases b with
    | nil => right; rfl
    | cons y ys =>
      by_cases hxy : x.toNat < y.toNat
      · left; simp [lexLe, hxy]
      · by_cases hyx : y.toNat < x.toNat
        · right; simp [lexLe, hyx]
        · rcases ih ys with h | h
          · left; simp [lexLe, hxy, hyx, h]
          · right; simp [lexLe, hxy, hyx, h]

theorem lexLe_trans : ∀ a b c : List Char,
    lexLe a b = true → lexLe b c = true → lexLe a c = true := by
  intro a
  induction a with
  | nil => intro _ _ _ _; rfl
  | cons x xs ih =>
    intro b c hab hbc
    cases b with
    | nil => simp [lexLe] at hab
    | cons y ys =>
      cases c with
      | nil => simp [lexLe] at hbc
      | cons z zs =>
        simp only [lexLe] at hab hbc ⊢
        by_cases hxy : x.toNat < y.toNat
        · by_cases hyz : y.toNat < z.toNat
          · simp [show x.toNat < z.toNat by omega]
          · by_cases hzy : z.toNat < y.toNat
            · simp only [if_neg hyz, if_pos hzy] at hbc
              exact absurd hbc (by simp)
            · simp [show x.toNat < z.toNat by omega]
        · by_cases hyx : y.toNat < x.toNat
          · simp only [if_neg hxy, if_pos hyx] at hab
            exact absurd hab (by simp)
          · simp only [if_neg hxy, if_neg hyx] at hab
            by_cases hyz : y.toNat < z.toNat
            · simp [show x.toNat < z.toNat by omega]
            · by_cases hzy : z.toNat < y.toNat
              · simp only [if_neg hyz, if_pos hzy] at hbc
                exact absurd hbc (by simp)
              · simp only [if_neg hyz, if_neg hzy] at hbc
                simp only [if_neg (show ¬ x.toNat < z.toNat by omega),
                  if_neg (show ¬ z.toNat < x.toNat by omega)]
                exact ih ys zs hab hbc

instance : IsTotal Rec timeLE := ⟨fun x y => lexLe_total x.time.data y.time.data⟩

instance : IsTrans Rec timeLE := ⟨fun a b c => lexLe_trans a.time.data b.time.data c.time.data⟩

instance : IsRefl Rec timeLE := ⟨fun a => lexLe_refl a.time.data⟩

deriving instance DecidableEq for Except

theorem normalizeRec_eq_none (r : Rec) : normalizeRec r = none ↔ parseTime r.time = none := by
  simp [normalizeRec]

theorem normalizeAll_eq_none (records : List Rec) :
    normalizeAll records = none ↔ ∃ r ∈ records, parseTime r.time = none := by
  induction records with
  | nil => simp [normalizeAll]
  | cons r rs ih =>
    simp only [normalizeAll]
    cases hp : normalizeRec r with
    | none =>
      simp only [List.mem_cons]
      constructor
      · intro _
        exact ⟨r, Or.inl rfl, (normalizeRec_eq_none r).mp hp⟩
      · intro _
        trivial
    | some r2 =>
      have hp2 : parseTime r.time ≠ none := by
        intro hnone
        rw [(normalizeRec_eq_none r).mpr hnone] at hp
        cases hp
      simp only [Option.map_eq_none', ih, List.mem_cons]
      constructor
      · rintro ⟨x, hx, hpx⟩
        exact ⟨x, Or.inr hx, hpx⟩
      · rintro ⟨x, hx | hx, hpx⟩
        · rw [hx] at hpx
          exact absurd hpx hp2
        · exact ⟨x, hx, hpx⟩

/-- C2 (amended): the normalization step fails exactly when some record's
raw timestamp cannot be parsed as a calendar date-time, and the failure is
an uncaught exception that discards the whole batch: the call returns an
error rather than the other records. -/
theorem formatted_error_iff (records : List Rec) :
    formatted_attendance_data records = .error () ↔
      ∃ r ∈ records, parseTime r.time = none := by
  unfold formatted_attendance_data
  cases hn : normalizeAll records with
  | none =>
    constructor
    · intro _
      exact (normalizeAll_eq_none records).mp hn
    · intro _
      rfl
  | some l =>
    constructor
    · intro h
      exact Except.noConfusion h
    · intro hex
      rw [(normalizeAll_eq_none records).mpr hex] at hn
      cases hn

/-- C2 (counterexample to the claim as stated): a batch holding one
parsable and one unparsable record makes `formatted_attendance_data` raise
(error), discarding the parsable record as well, instead of dropping only
the offending record. -/
theorem unparsable_timestamp_aborts_batch :
    formatted_attendance_data
        [⟨"u1", "User One", "2024-11-28 09:00:00", 0⟩,
         ⟨"u2", "User Two", "not-a-date", 0⟩] = .error () ∧
      parseTime "2024-11-28 09:00:00" ≠ none ∧
      parseTime "not-a-date" = none := by decide

theorem filterAux_eq_filter (wm now : DT) (records : List Rec)
    (h : ∀ r ∈ records, (parseTime r.time).isSome) :
    filterAux wm now records = .ok (records.filter (timeOkB wm now)) := by
  induction records with
  | nil => simp [filterAux]
  | cons r rs ih =>
    have hr := h r (List.mem_cons_self r rs)
    obtain ⟨t, ht⟩ := Option.isSome_iff_exists.mp hr
    have hrs : ∀ x ∈ rs, (parseTime x.time).isSome := fun x hx =>
      h x (List.mem_cons.mpr (Or.inr hx))
    rw [List.filter_cons]
    simp only [filterAux, ht, ih hrs, timeOkB]

/-- C4: given a readable, parsable watermark and parsable record
timestamps, `filter_data` returns exactly the subsequence of its input
whose timestamp lies in the closed interval from the watermark to `now`:
every kept record satisfies the predicate and a record of the input is kept
iff it satisfies the predicate. -/
theorem watermark_filter_spec (content : String) (wm now : DT) (records : List Rec)
    (hc : parseISO content = some wm)
    (h : ∀ r ∈ records, (parseTime r.time).isSome) :
    ∃ l, filter_data (some content) now records = .ok l ∧
      l.Sublist records ∧
      (∀ r ∈ l, timeOkB wm now r = true) ∧
      (∀ r ∈ records, (r ∈ l ↔ timeOkB wm now r = true)) := by
  refine ⟨records.filter (timeOkB wm now), ?_, List.filter_sublist records, ?_, ?_⟩
  · simp [filter_data, hc, filterAux_eq_filter wm now records h]
  · intro r hr
    exact (List.mem_filter.mp hr).2
  · intro r hr
    constructor
    · intro hm
      exact (List.mem_filter.mp hm).2
    · intro hok
      exact List.mem_filter.mpr ⟨hr, hok⟩

/-- C4 witness: the filter at a concrete watermark window keeps the
in-window record and drops the out-of-window one. -/
theorem watermark_filter_spec_witness :
    ∃ l, filter_data (some "2024-11-28T00:00:00+05:45") ⟨2024, 11, 29, 0, 0, 0⟩
        [⟨"u1", "User One", "2024-11-28 09:00:00", 0⟩,
         ⟨"u2", "User Two", "2024-11-27 09:00:00", 0⟩] = .ok l ∧
      l.Sublist [⟨"u1", "User One", "2024-11-28 09:00:00", 0⟩,
         ⟨"u2", "User Two", "2024-11-27 09:00:00", 0⟩] ∧
      (∀ r ∈ l, timeOkB ⟨2024, 11, 28, 0, 0, 0⟩ ⟨2024, 11, 29, 0, 0, 0⟩ r = true) ∧
      (∀ r ∈ [(⟨"u1", "User One", "2024-11-28 09:00:00", 0⟩ : Rec),
         ⟨"u2", "User Two", "2024-11-27 09:00:00", 0⟩],
        (r ∈ l ↔ timeOkB ⟨2024, 11, 28, 0, 0, 0⟩ ⟨2024, 11, 29, 0, 0, 0⟩ r = true)) :=
  watermark_filter_spec "2024-11-28T00:00:00+05:45" ⟨2024, 11, 28, 0, 0, 0⟩
    ⟨2024, 11, 29, 0, 0, 0⟩ _ (by decide) (by decide)

/-- C5: across successful runs the persisted watermark never decreases:
if the watermark read at the start of the cycle is a previously committed
value (a midnight instant) whose date is not after the current date, then
the commit step writes the midnight of the current date, which is not
before the value that was read; the written value is again a midnight
instant, so the precondition is maintained for the next cycle. -/
theorem watermark_monotone (content : String) (w0 now : DT)
    (hread : parseISO content = some w0)
    (hmid : w0.h = 0 ∧ w0.mi = 0 ∧ w0.s = 0)
    (hclock : DT.dateLE w0 now = true) :
    updateTheLastSyncDate content now = some (strftimeCommit now) ∧
    DT.le w0 now.floorDay = true ∧
    now.floorDay.h = 0 ∧ now.floorDay.mi = 0 ∧ now.floorDay.s = 0 := by
  refine ⟨by simp [updateTheLastSyncDate, hread], ?_, rfl, rfl, rfl⟩
  obtain ⟨h1, h2, h3⟩ := hmid
  simp only [DT.dateLE, decide_eq_true_eq] at hclock
  simp only [DT.le, DT.floorDay, decide_eq_true_eq]
  omega

/-- C5 witness: a committed watermark of 2024-11-27 midnight followed by a
run on 2024-11-28 commits 2024-11-28 midnight, which is not earlier. -/
theorem watermark_monotone_witness :
    updateTheLastSyncDate "2024-11-27T00:00:00+05:45" ⟨2024, 11, 28, 10, 0, 0⟩ =
      some (strftimeCommit ⟨2024, 11, 28, 10, 0, 0⟩) ∧
    DT.le ⟨2024, 11, 27, 0, 0, 0⟩ (DT.floorDay ⟨2024, 11, 28, 10, 0, 0⟩) = true ∧
    (DT.floorDay ⟨2024, 11, 28, 10, 0, 0⟩).h = 0 ∧
    (DT.floorDay ⟨2024, 11, 28, 10, 0, 0⟩).mi = 0 ∧
    (DT.floorDay ⟨2024, 11, 28, 10, 0, 0⟩).s = 0 :=
  watermark_monotone "2024-11-27T00:00:00+05:45" ⟨2024, 11, 27, 0, 0, 0⟩
    ⟨2024, 11, 28, 10, 0, 0⟩ (by decide) (by decide) (by decide)

/-- C6: whenever the watermark update runs to completion (the old content
parses), the new file content is the commit string, whose parsed value is
exactly the midnight (00:00:00) of the current calendar date with the
literal `+05:45` offset, independently of the old watermark value and of
the current time of day. -/
theorem commit_writes_start_of_today (content : String) (now : DT)
    (hold : (parseISO content).isSome = true)
    (hv : now.floorDay.valid) :
    updateTheLastSyncDate content now = some (strftimeCommit now) ∧
    parseISO (strftimeCommit now) = some now.floorDay := by
  obtain ⟨w, hw⟩ := Option.isSome_iff_exists.mp hold
  exact ⟨by simp [updateTheLastSyncDate, hw], parseISO_renderISO _ hv⟩

/-- C6 witness: a concrete update at 10:00 on 2024-11-28 writes the string
whose parsed value is 2024-11-28 at midnight. -/
theorem commit_writes_start_of_today_witness :
    updateTheLastSyncDate "2024-11-27T00:00:00+05:45" ⟨2024, 11, 28, 10, 0, 0⟩ =
      some (strftimeCommit ⟨2024, 11, 28, 10, 0, 0⟩) ∧
    parseISO (strftimeCommit ⟨2024, 11, 28, 10, 0, 0⟩) =
      some (DT.floorDay ⟨2024, 11, 28, 10, 0, 0⟩) :=
  commit_writes_start_of_today "2024-11-27T00:00:00+05:45" ⟨2024, 11, 28, 10, 0, 0⟩
    (by decide) (by decide)

/-- C7: a punch event whose raw timestamp parses is rewritten to exactly
that date-time in the ISO form with the literal `+05:45` suffix (parsing
the output recovers the same date-time), and a person id absent from the
id-to-name lookup is given the name "Unknown User". -/
theorem normalizer_spec (r : Rec) (t : DT) (m : List (String × String)) (uid : String)
    (hp : parseTime r.time = some t)
    (hu : lookupKey m uid = none) :
    normalizeRec r = some ⟨r.user_id, r.user_name, renderISO t, r.status⟩ ∧
    parseISO (renderISO t) = some t ∧
    userNameOf m uid = "Unknown User" := by
  refine ⟨by simp [normalizeRec, hp], parseISO_renderISO t (parseTime_valid hp), ?_⟩
  simp [userNameOf, hu]

/-- C7 witness: a concrete record with a parsable timestamp and an id that
is not in the lookup. -/
theorem normalizer_spec_witness :
    normalizeRec ⟨"u9", "N", "2024-11-28 09:30:05", 1⟩ =
      some ⟨"u9", "N", renderISO ⟨2024, 11, 28, 9, 30, 5⟩, 1⟩ ∧
    parseISO (renderISO ⟨2024, 11, 28, 9, 30, 5⟩) = some ⟨2024, 11, 28, 9, 30, 5⟩ ∧
    userNameOf [("u1", "User One")] "u9" = "Unknown User" :=
  normalizer_spec ⟨"u9", "N", "2024-11-28 09:30:05", 1⟩ ⟨2024, 11, 28, 9, 30, 5⟩
    [("u1", "User One")] "u9" (by decide) (by decide)

/-- C8: whenever the connection to the terminal succeeds, the trace of
`fetch_attendance_data` ends with `enable_device` followed by `disconnect`,
on every exit path of the body — normal return, empty-attendance return,
and an exception raised during extraction, filtering, reduction or
snapshot storage. -/
theorem teardown_on_every_exit (dev : DeviceBehavior) (wmContent : Option String) (now : DT)
    (hconn : dev.connectOk = true) :
    ∃ pre, (fetch_attendance_data dev wmContent now).2 =
        pre ++ [Action.enableDevice, Action.disconnect] ∧
      Action.enableDevice ∈ (fetch_attendance_data dev wmContent now).2 ∧
      Action.disconnect ∈ (fetch_attendance_data dev wmContent now).2 := by
  refine ⟨Action.connect :: (fetchBody dev wmContent now).2, ?_, ?_, ?_⟩ <;>
    simp [fetch_attendance_data, hconn]

/-- C8 witness: a device whose user-directory call raises mid-fetch is
still re-enabled and disconnected. -/
theorem teardown_on_every_exit_witness :
    ∃ pre, (fetch_attendance_data ⟨true, true, true, false, [], []⟩ none
        ⟨2024, 11, 28, 10, 0, 0⟩).2 = pre ++ [Action.enableDevice, Action.disconnect] ∧
      Action.enableDevice ∈ (fetch_attendance_data ⟨true, true, true, false, [], []⟩ none
        ⟨2024, 11, 28, 10, 0, 0⟩).2 ∧
      Action.disconnect ∈ (fetch_attendance_data ⟨true, true, true, false, [], []⟩ none
        ⟨2024, 11, 28, 10, 0, 0⟩).2 :=
  teardown_on_every_exit ⟨true, true, true, false, [], []⟩ none
    ⟨2024, 11, 28, 10, 0, 0⟩ (by decide)

/-- C9: an empty attendance list makes `fetch_attendance_data` return
`None`, and the main loop then performs no delivery POST, no log flush and
no watermark update for that device; conversely, any of those follow-up
actions implies the device returned at least one raw punch event. -/
theorem empty_attendance_skips_cycle :
    (∀ (dev : DeviceBehavior) (deliveryResult : Option Nat) (logPostOk logClearOk : Bool)
      (now : DT) (st : SweepState), dev.attendance = [] →
        (fetch_attendance_data dev st.wm now).1 = none ∧
        deviceSweepStep dev deliveryResult logPostOk logClearOk now st = (st, [])) ∧
    (∀ (dev : DeviceBehavior) (deliveryResult : Option Nat) (logPostOk logClearOk : Bool)
      (now : DT) (st : SweepState),
        (deviceSweepStep dev deliveryResult logPostOk logClearOk now st).2 ≠ [] →
        dev.attendance ≠ []) := by
  have hfetch : ∀ (dev : DeviceBehavior) (wm : Option String) (now : DT),
      dev.attendance = [] → (fetch_attendance_data dev wm now).1 = none := by
    intro dev wm now hemp
    unfold fetch_attendance_data fetchBody
    by_cases hc : dev.connectOk = false
    · simp [hc]
    · simp only [hc, if_false]
      split_ifs <;> simp [hemp]
  constructor
  · intro dev deliveryResult logPostOk logClearOk now st hemp
    refine ⟨hfetch dev st.wm now hemp, ?_⟩
    unfold deviceSweepStep
    rw [hfetch dev st.wm now hemp]
  · intro dev deliveryResult logPostOk logClearOk now st hacts hemp
    apply hacts
    unfold deviceSweepStep
    rw [hfetch dev st.wm now hemp]

/-- C9 witness: a concrete device reporting no punches leaves the sweep
state untouched and performs no follow-up action. -/
theorem empty_attendance_skips_cycle_witness :
    (fetch_attendance_data ⟨true, true, true, true, [], [("u1", "User One")]⟩
        (some "2024-11-27T00:00:00+05:45") ⟨2024, 11, 28, 10, 0, 0⟩).1 = none ∧
    deviceSweepStep ⟨true, true, true, true, [], [("u1", "User One")]⟩ (some 200) true true
        ⟨2024, 11, 28, 10, 0, 0⟩ ⟨some "2024-11-27T00:00:00+05:45", some "log"⟩ =
      (⟨some "2024-11-27T00:00:00+05:45", some "log"⟩, []) :=
  empty_attendance_skips_cycle.1 ⟨true, true, true, true, [], [("u1", "User One")]⟩
    (some 200) true true ⟨2024, 11, 28, 10, 0, 0⟩
    ⟨some "2024-11-27T00:00:00+05:45", some "log"⟩ (by decide)

/-- C10: whenever the log file is readable, the log-shipping step truncates
it to empty before returning, both when the POST succeeded and when it
failed — a failed log POST loses the accumulated text locally; an
unreadable file is returned untouched (the function returns early). -/
theorem log_truncated_regardless_of_post (content : String) (postOk : Bool) :
    sendLogFileDataToserver (some content) postOk true = some "" ∧
    sendLogFileDataToserver (some content) false true =
      sendLogFileDataToserver (some content) true true ∧
    sendLogFileDataToserver none postOk true = none :=
  ⟨rfl, rfl, rfl⟩

/-- C1 (evaluation at the failing input): the collector answers HTTP 500,
so `sendDataToServer` fails (returns `None` after catching the
`HTTPError`), yet the cycle still truncates the log and rewrites the
watermark file from 2024-11-27 midnight to 2024-11-28 midnight — the
persisted watermark is NOT preserved on failed delivery. -/
theorem watermark_advances_on_failed_delivery :
    sendDataToServer (some 500) = none ∧
    deviceSweepStep ⟨true, true, true, true, [⟨"u1", ⟨2024, 11, 28, 9, 0, 0⟩, 0⟩],
        [("u1", "User One")]⟩ (some 500) true true ⟨2024, 11, 28, 10, 0, 0⟩
        ⟨some "2024-11-27T00:00:00+05:45", some "log text"⟩ =
      (⟨some "2024-11-28T00:00:00+05:45", some ""⟩,
        [CycleAct.sendData, CycleAct.sendLog, CycleAct.updateWM]) ∧
    ("2024-11-28T00:00:00+05:45" : String) ≠ "2024-11-27T00:00:00+05:45" := by
  decide

theorem getLastD_mem : ∀ (l : List Rec) (a : Rec), l.getLastD a ∈ a :: l := by
  intro l
  induction l with
  | nil => intro a; simp [List.getLastD]
  | cons b bs ih =>
    intro a
    rw [List.getLastD_cons]
    exact List.mem_cons_of_mem a (ih b)

theorem sorted_head_min {a : Rec} {l : List Rec} (h : List.Sorted timeLE (a :: l)) :
    ∀ x ∈ a :: l, lexLe a.time.data x.time.data = true := by
  intro x hx
  rcases List.mem_cons.mp hx with rfl | hx2
  · exact lexLe_refl _
  · exact List.rel_of_sorted_cons h x hx2

theorem sorted_le_getLastD : ∀ (l : List Rec) (a : Rec), List.Sorted timeLE (a :: l) →
    ∀ x ∈ a :: l, lexLe x.time.data (l.getLastD a).time.data = true := by
  intro l
  induction l with
  | nil =>
    intro a _ x hx
    simp only [List.mem_singleton] at hx
    subst hx
    exact lexLe_refl _
  | cons b bs ih =>
    intro a hs x hx
    have hs2 : List.Sorted timeLE (b :: bs) := hs.of_cons
    rw [List.getLastD_cons]
    rcases List.mem_cons.mp hx with rfl | hx2
    · have hab : timeLE x b := List.rel_of_sorted_cons hs b (List.mem_cons_self b bs)
      have hbl : lexLe b.time.data (bs.getLastD b).time.data = true :=
        ih b hs2 b (List.mem_cons_self b bs)
      exact lexLe_trans _ _ _ hab hbl
    · exact ih b hs2 x hx2

/-- C3 (amended): for every nonempty group, the reducer outputs the
earliest and the latest records of the stable sort by timestamp — exactly
one record when those two are structurally equal (in particular when the
group has a single record or all records are identical), and exactly two
records otherwise; and Scenario A's three punches for u1 (09:00, 18:00,
18:00 on 2024-11-28) pass the watermark filter and reduce to exactly the
two entries 09:00 and 18:00. -/
theorem daily_reducer_spec :
    (∀ records : List Rec, records ≠ [] →
      ∃ a b, a ∈ records ∧ b ∈ records ∧
        (∀ r ∈ records,
          lexLe a.time.data r.time.data = true ∧ lexLe r.time.data b.time.data = true) ∧
        reduceGroup records = (if a = b then [a] else [a, b])) ∧
    (filter_data (some "2024-11-28T00:00:00+05:45") ⟨2024, 11, 29, 0, 0, 0⟩
        [⟨"u1", "User One", "2024-11-28 09:00:00", 0⟩,
         ⟨"u1", "User One", "2024-11-28 18:00:00", 0⟩,
         ⟨"u1", "User One", "2024-11-28 18:00:00", 0⟩] =
      .ok [⟨"u1", "User One", "2024-11-28 09:00:00", 0⟩,
         ⟨"u1", "User One", "2024-11-28 18:00:00", 0⟩,
         ⟨"u1", "User One", "2024-11-28 18:00:00", 0⟩] ∧
     formatted_attendance_data
        [⟨"u1", "User One", "2024-11-28 09:00:00", 0⟩,
         ⟨"u1", "User One", "2024-11-28 18:00:00", 0⟩,
         ⟨"u1", "User One", "2024-11-28 18:00:00", 0⟩] =
      .ok [("2024-11-28",
        [("u1", [⟨"u1", "User One", "2024-11-28T09:00:00+05:45", 0⟩,
                 ⟨"u1", "User One", "2024-11-28T18:00:00+05:45", 0⟩])])]) := by
  constructor
  · intro records hne
    have hperm := List.perm_insertionSort timeLE records
    have hsorted := List.sorted_insertionSort timeLE records
    cases hs : List.insertionSort timeLE records with
    | nil =>
      rw [hs] at hperm
      exact absurd hperm.symm.eq_nil hne
    | cons first rest =>
      rw [hs] at hperm hsorted
      refine ⟨first, rest.getLastD first, ?_, ?_, ?_, ?_⟩
      · exact hperm.subset (List.mem_cons_self first rest)
      · exact hperm.subset (getLastD_mem rest first)
      · intro r hr
        have hrs : r ∈ first :: rest := hperm.mem_iff.mpr hr
        exact ⟨sorted_head_min hsorted r hrs, sorted_le_getLastD rest first hsorted r hrs⟩
      · unfold reduceGroup
        rw [hs]
        show (if rest ≠ [] ∧ first ≠ rest.getLastD first
            then [first, rest.getLastD first] else [first]) =
          if first = rest.getLastD first then [first] else [first, rest.getLastD first]
        by_cases h1 : rest = []
        · subst h1
          rw [List.getLastD_nil]
          simp
        · by_cases h2 : first = rest.getLastD first
          · have hc : ¬(rest ≠ [] ∧ first ≠ rest.getLastD first) := by
              intro hcon
              exact hcon.2 h2
            rw [if_neg hc, if_pos h2]
          · rw [if_pos ⟨h1, h2⟩, if_neg h2]
  · exact ⟨by decide, by decide⟩

/-- C3 witness: a singleton group reduces to that single record. -/
theorem daily_reducer_spec_witness :
    ∃ a b, a ∈ [(⟨"u1", "User One", "2024-11-28T09:00:00+05:45", 0⟩ : Rec)] ∧
      b ∈ [(⟨"u1", "User One", "2024-11-28T09:00:00+05:45", 0⟩ : Rec)] ∧
      (∀ r ∈ [(⟨"u1", "User One", "2024-11-28T09:00:00+05:45", 0⟩ : Rec)],
        lexLe a.time.data r.time.data = true ∧ lexLe r.time.data b.time.data = true) ∧
      reduceGroup [(⟨"u1", "User One", "2024-11-28T09:00:00+05:45", 0⟩ : Rec)] =
        (if a = b then [a] else [a, b]) :=
  daily_reducer_spec.1 [⟨"u1", "User One", "2024-11-28T09:00:00+05:45", 0⟩] (by decide)

/-- C3 (counterexample to the claim as stated): three records in one
(date, person) group that are NOT all structurally identical — the middle
one differs in its status — but share one timestamp: the stable sort keeps
their order, the first and last sorted records are equal, and the reducer
outputs exactly 1 record, not 2. -/
theorem reducer_collapses_despite_distinct :
    formatted_attendance_data
        [⟨"u1", "User One", "2024-11-28 09:00:00", 0⟩,
         ⟨"u1", "User One", "2024-11-28 09:00:00", 1⟩,
         ⟨"u1", "User One", "2024-11-28 09:00:00", 0⟩] =
      .ok [("2024-11-28", [("u1", [⟨"u1", "User One", "2024-11-28T09:00:00+05:45", 0⟩])])] ∧
    (⟨"u1", "User One", "2024-11-28 09:00:00", 1⟩ : Rec) ≠
      ⟨"u1", "User One", "2024-11-28 09:00:00", 0⟩ := by
  decide
